import Mathlib

/-!
Verification development for the stockalert-backend repository.

Each Python function relevant to the specification claims is embedded as an
executable Lean definition.  `Option String` models Python values that may be
`None`; a plain `String` field models a dictionary value where only the empty
string and a missing key behave the same (Python `or`-chains treat `None` and
`''` identically as falsy).  Mutable stores (the JSON cache file, MongoDB
collections) are modelled as explicit values threaded through the functions.
-/

namespace StockAlert

/-! ### `main.py` — announcement records, cache, `find_new`

`fetch_announcements` builds dictionaries with keys `symbol`, `company_name`,
`subject`, `details`, `broadcast_date`, `attachment_link`, `attachment_size`.
The three fields used by `find_new`'s key are modelled as the strings that
Python's f-string interpolation produces. -/

structure Announcement where
  symbol : String
  company_name : String
  subject : String
  details : String
  broadcast_date : String
  attachment_link : Option String
  attachment_size : Option String
deriving DecidableEq, Repr

/-- `main.py` line 61: `f"{f['symbol']}_{f['broadcast_date']}_{f['subject']}"`. -/
def fnKey (f : Announcement) : String :=
  f.symbol ++ "_" ++ f.broadcast_date ++ "_" ++ f.subject

/-- `main.py` `find_new(old, new)`: build the set of keys of `old` and keep the
records of `new` whose key is not in it.  The Python `set` is modelled as the
list of keys, used only for membership tests. -/
def find_new (old new : List Announcement) : List Announcement :=
  let old_ids := old.map fnKey
  new.filter (fun f => !(old_ids.contains (fnKey f)))

/-- One cycle of `main.py`'s `main()`: `fetched` is the result of
`fetch_announcements` (`none` = request error / non-200, which returns `None`).
`cache` is the `filings` list persisted by `save_cache` / read by `load_cache`.
Returns the cache state after the cycle and `some novel` when the cycle ran
(`none` when `if not current:` aborted before touching any state).
`save_cache(current)` replaces the stored filings wholesale with `current`. -/
def mainCycle (fetched : Option (List Announcement)) (cache : List Announcement) :
    List Announcement × Option (List Announcement) :=
  match fetched with
  | none => (cache, none)
  | some current =>
    if current = [] then (cache, none)
    else
      let old := cache
      let novel := find_new old current
      (current, some novel)

/-! ### `nse_scrapper.py` — records, `save_to_mongodb`, the scraper cycle

`parse_to_dataframe` produces rows with keys `Symbol`, `Company`, `Subject`,
`Description`, `Attachment_URL`, `File_Size`, `Timestamp`, `XBRL_Link`
(each defaulted to `''` when the upstream item lacks the field).  The extra
`sm_name` field models the raw upstream key consulted by the `or`-chains in
`save_to_mongodb` and `server.py`; it is `""` on rows coming from
`parse_to_dataframe` (the key is absent there, and a missing key behaves the
same as `''` in an `or`-chain). -/

structure NSERecord where
  Symbol : String
  Company : String
  Subject : String
  Description : String
  Attachment_URL : String
  File_Size : String
  Timestamp : String
  XBRL_Link : String
  sm_name : String
deriving DecidableEq, Repr

/-- The `announcement` dictionary built per record in `save_to_mongodb` (the
`scraped_at` wall-clock field is omitted: it is not inspected by any claim). -/
structure NSEAnnouncement where
  Symbol : String
  Subject : String
  Description : String
  Attachment_URL : String
  File_Size : String
  Timestamp : String
  XBRL_Link : String
deriving DecidableEq, Repr

def announcementOf (r : NSERecord) : NSEAnnouncement :=
  { Symbol := r.Symbol
    Subject := r.Subject
    Description := r.Description
    Attachment_URL := r.Attachment_URL
    File_Size := r.File_Size
    Timestamp := r.Timestamp
    XBRL_Link := r.XBRL_Link }

/-- `save_to_mongodb` line 111:
`record.get('Company') or record.get('sm_name') or record.get('company') or 'Unknown'`
(the lower-case `company` key is produced by no code path in the repository).
The following `if not company: company = 'Unknown'` is unreachable, since the
`or`-chain already yields the truthy `'Unknown'`. -/
def companyKey (r : NSERecord) : String :=
  if r.Company ≠ "" then r.Company
  else if r.sm_name ≠ "" then r.sm_name
  else "Unknown"

/-- A MongoDB collection keyed by `_id`, modelled as an association list. -/
abbrev CompanyColl := List (String × NSEAnnouncement)

/-- `collection.update_one({'_id': k}, {'$set': {...}}, upsert=True)`: replace
the document with `_id = k` when present, append a new one otherwise.  MongoDB
enforces a unique index on `_id`, so at most one document matches; the model
replaces the first match. -/
def upsert : CompanyColl → String → NSEAnnouncement → CompanyColl
  | [], k, v => [(k, v)]
  | p :: rest, k, v => if p.1 == k then (k, v) :: rest else p :: upsert rest k v

/-- `collection.find_one({'_id': k})`, restricted to the stored announcement. -/
def findEntry (m : CompanyColl) (k : String) : Option NSEAnnouncement :=
  (m.find? (fun p => p.1 == k)).map Prod.snd

/-- `NSEScraper.save_to_mongodb`: upsert each record's announcement under its
company key, in order. -/
def save_to_mongodb (m : CompanyColl) (records : List NSERecord) : CompanyColl :=
  records.foldl (fun m r => upsert m (companyKey r) (announcementOf r)) m

/-- The `last_hour` documents built in `nse_scrapper.main` (lines 402-422):
one `{'_id': company, 'latest': announcement}` per record.  The
`f'Unknown_{idx}'` branch is dead code (`'Unknown'` from the `or`-chain is
truthy), so the key is the same `or`-chain as `companyKey`. -/
def lastHourDocs (records : List NSERecord) : List (String × NSEAnnouncement) :=
  records.map (fun r => (companyKey r, announcementOf r))

/-- The mutable MongoDB state touched by `nse_scrapper.main`: the persistent
`company-map` collection and the transient `last_hour` collection. -/
structure ScraperState where
  companyMap : CompanyColl
  lastHour : List (String × NSEAnnouncement)
deriving DecidableEq, Repr

/-- One run of `nse_scrapper.main`: `data` is the fetch/parse outcome (`none`
when `fetch_corporate_filings` returned `None`), and an empty record list
models an empty DataFrame (`df.empty`).  On fetch failure or empty data the
function returns before touching either collection; otherwise it rebuilds
`last_hour` (drop + insert) and then upserts into `company-map`. -/
def scraperMain (data : Option (List NSERecord)) (st : ScraperState) : ScraperState :=
  match data with
  | none => st
  | some records =>
    if records = [] then st
    else
      { companyMap := save_to_mongodb st.companyMap records
        lastHour := lastHourDocs records }

/-! ### `server.py` — the `/scrape` endpoint's save loop -/

/-- `server.py` line 144: `rec.get("Company") or rec.get("sm_name") or rec.get("Symbol")`;
`none` models a falsy result (the record is then skipped by `continue`). -/
def serverCompanyKey (r : NSERecord) : Option String :=
  if r.Company ≠ "" then some r.Company
  else if r.sm_name ≠ "" then some r.sm_name
  else if r.Symbol ≠ "" then some r.Symbol
  else none

/-- The `$push` operations issued by `server.py`'s `scrape` (lines 139-170):
one `(company, announcement)` per record with a resolvable company; records
whose key chain is falsy are skipped (`continue`). -/
def scrapeSaved (records : List NSERecord) : List (String × NSEAnnouncement) :=
  records.filterMap (fun r => (serverCompanyKey r).map (fun c => (c, announcementOf r)))

/-! ### `scripts/send_whatsapp_template.py` — phone normalization -/

/-- `re.sub(r"[^0-9]", "", str(phone))`: keep only the decimal digits. -/
def digitsOnly (s : String) : String :=
  String.mk (s.data.filter Char.isDigit)

/-- `send_whatsapp_template.normalize_phone` (lines 120-131): `None`/`''` is
rejected, everything else is reduced to its digits; an empty digit string or a
length outside 8..15 is rejected (`None`), otherwise the digit string is
returned. -/
def normalize_phone (phone : Option String) : Option String :=
  match phone with
  | none => none
  | some s0 =>
    if s0 = "" then none
    else
      let s := digitsOnly s0
      if s = "" then none
      else if s.length < 8 || s.length > 15 then none
      else some s

/-- One entry of the recipients list fed to `validate_recipients`: a dict with
optional `phone` and `name` keys (a bare string entry is a `phone` with no
`name`). -/
structure RecipEntry where
  phone : Option String
  name : Option String
deriving DecidableEq, Repr

structure ValidRecipient where
  phone : String
  name : String
deriving DecidableEq, Repr

/-- `name or 'Customer'` on an optional value. -/
def nameOrCustomer (n : Option String) : String :=
  match n with
  | some s => if s = "" then "Customer" else s
  | none => "Customer"

/-- `send_whatsapp_template.validate_recipients`: split the entries into the
normalized valid recipients and the untouched invalid entries, in order. -/
def validate_recipients : List RecipEntry → List ValidRecipient × List RecipEntry
  | [] => ([], [])
  | r :: rest =>
    let (vs, is) := validate_recipients rest
    match normalize_phone r.phone with
    | some n => ({ phone := n, name := nameOrCustomer r.name } :: vs, is)
    | none => (vs, r :: is)

/-! ### `scripts/broadcast_message.py` — recipient extraction (lines 144-152) -/

/-- A contact document from the `nse data` collection; `""` models a missing
`phone`/`mobile` key (identical behaviour in the `or`-chain), while `name`
uses `.get('name', 'Customer')`, which defaults only on a missing key. -/
structure Contact where
  phone : String
  mobile : String
  name : Option String
deriving DecidableEq, Repr

/-- `str(phone).replace('+', '').replace('-', '').replace(' ', '')`. -/
def stripSeps (s : String) : String :=
  String.mk (s.data.filter (fun c => !(c == '+' || c == '-' || c == ' ')))

/-- `broadcast_message.main` lines 144-152: for each contact take
`phone or mobile`; skip falsy values; otherwise strip `+`/`-`/space and append
the result to the recipient list — with no digit check and no length check. -/
def broadcastRecipients (contacts : List Contact) : List ValidRecipient :=
  contacts.filterMap (fun c =>
    let ph := if c.phone ≠ "" then c.phone else c.mobile
    if ph = "" then none
    else some { phone := stripSeps ph, name := (c.name).getD "Customer" })

/-! ### `scripts/summarize_hour.py` — summarization, template payload,
broadcast loop -/

/-- Python `str.strip()`: drop leading and trailing whitespace. -/
def pyStrip (s : String) : String :=
  String.mk (((s.data.dropWhile Char.isWhitespace).reverse.dropWhile
    Char.isWhitespace).reverse)

/-- Python `str.split(sep)` for a one-character separator: split at every
occurrence, keeping empty pieces. -/
def splitOnChar (c : Char) : List Char → List (List Char)
  | [] => [[]]
  | x :: xs =>
    match splitOnChar c xs with
    | [] => [[]]
    | h :: t => if x = c then [] :: h :: t else (x :: h) :: t

/-- The heuristic summary of `summarize_text` (lines 106-109):
`text.replace('\n', ' ').split('.')`, keep the stripped sentences longer than
20 characters, join the first one and append `'.'`; a fixed placeholder when
no sentence survives.  (`'. '.join(clean[:1])` of a singleton list is that
sentence itself.) -/
def heuristic_summary (text : String) : String :=
  let flattened := text.data.map (fun ch => if ch = '\n' then ' ' else ch)
  let sentences := (splitOnChar '.' flattened).map String.mk
  let clean := (sentences.map pyStrip).filter (fun s => s.length > 20)
  match clean with
  | [] => "System update log available."
  | c :: _ => c ++ "."

/-- Python truthiness of the `openai_key` value (`None` and `''` are falsy). -/
def keyTruthy : Option String → Bool
  | none => false
  | some k => !(k == "")

/-- `summarize_hour.summarize_text` (lines 83-109).  The external OpenAI call
is the collaborator outcome `llm`: `some content` when
`client.chat.completions.create` succeeds, `none` when it raises (the
exception is swallowed by `except ... pass` and control falls through to the
heuristic).  When the key is falsy the call is never attempted. -/
def summarize_text (openai_key : Option String) (llm : Option String)
    (text _company : String) : String × Option String :=
  if text = "" then ("No text extracted from document.", none)
  else if keyTruthy openai_key then
    match llm with
    | some content => (pyStrip content, none)
    | none => (heuristic_summary text, none)
  else (heuristic_summary text, none)

/-- `str(v).strip() if v else default` — the sanitization applied to each
template variable in `summarize_hour.build_template_payload`. -/
def sanitizeField (v : Option String) (dflt : String) : String :=
  match v with
  | none => dflt
  | some s => if s = "" then dflt else pyStrip s

/-- `if len(alert_details) > 1000: alert_details = alert_details[:997] + "..."`
(Python slicing = taking the first 997 characters). -/
def truncateDetails (s : String) : String :=
  if s.length > 1000 then String.mk (s.data.take 997) ++ "..." else s

/-- The four body-parameter texts of the payload built by
`summarize_hour.build_template_payload` (lines 138-195); the remaining payload
fields (`to`, template name, language, parameter names) are fixed structure
around these texts. -/
structure TemplateParams where
  user_name : String
  item_id : String
  value_metric : String
  alert_details : String
deriving DecidableEq, Repr

def build_template_payload (user_name item_id value_metric alert_details : Option String) :
    TemplateParams :=
  { user_name := sanitizeField user_name "User"
    item_id := sanitizeField item_id "REF-UNKNOWN"
    value_metric := sanitizeField value_metric "N/A"
    alert_details := truncateDetails (sanitizeField alert_details "Log update.") }

/-- One document of the `last_hour` collection as read by
`summarize_hour.main`: `id` is the resolved company
(`doc.get('_id') or doc.get('company') or doc.get('latest', {}).get('Company')`,
`""` when the whole chain is falsy) and `attachment_url` the resolved
attachment (`latest.get('Attachment_URL') or latest.get('attchmntFile') or ''`). -/
structure LastHourDoc where
  id : String
  attachment_url : String
deriving DecidableEq, Repr

/-- A document enters the broadcast section iff its company chain is truthy
(otherwise `continue`) and its attachment is truthy (otherwise
`'No attachment, skipping'`).  A download or extraction failure does NOT skip
the document: the summary is computed from empty text and broadcast proceeds. -/
def docEligible (d : LastHourDoc) : Bool :=
  !(d.id == "") && !(d.attachment_url == "")

/-- The `send_message` invocations of one run of `summarize_hour.main`'s
broadcast loop (lines 332-364), as `(company, phone)` pairs: for every
eligible document, one invocation per recipient of the target list, in order.
The loop consults no record of previously notified recipients — the pairs
depend only on `docs` and `recipients`. -/
def sendInvocations (docs : List LastHourDoc) (recipients : List String) :
    List (String × String) :=
  (docs.filter docEligible).flatMap (fun d => recipients.map (fun p => (d.id, p)))

/-! ### `scripts/summarize_last_hour.py` — primary-only summarization -/

/-- `summarize_text_with_openai` (lines 179-257): each element of `attempts`
is the outcome of one retry of the external OpenAI call (`some content` on
success, `none` on exception or missing choices).  The first success is
stripped and returned with no error; when every attempt fails the function
returns `(None, err_text)` — there is no heuristic fallback in this script. -/
def summarize_text_with_openai (attempts : List (Option String)) :
    Option String × Option String :=
  match attempts.findSome? id with
  | some content => (some (pyStrip content), none)
  | none => (none, some "OpenAI summarization failed")

/-! ### `app/__init__.py` — `parse_filings_table`

The HTML is modelled down to what the parser inspects: per table the header
cell texts and the rows; per row the cells; per cell its flattened text
(`get_text(strip=True)`) and the first anchor tag inside it (`find('a')`),
which may lack an `href` attribute. -/

structure Anchor where
  href : Option String
  text : String
deriving DecidableEq, Repr

structure Cell where
  text : String
  anchor : Option Anchor
deriving DecidableEq, Repr

structure TableRow where
  cells : List Cell
deriving DecidableEq, Repr

structure HtmlTable where
  headerTexts : List String
  rows : List TableRow
deriving DecidableEq, Repr

structure Filing where
  symbol : String
  company_name : String
  subject : String
  details : String
  attachment_link : Option String
  attachment_size : Option String
  broadcast_date : String
deriving DecidableEq, Repr

/-- The closing scan of the lazy pattern `\((.+?)\)` once the opening `(` and
the first (mandatory) content character have matched: the first `)` ends the
group, a newline kills the match at this start position (`.` does not match
`\n`), any other character extends the content. -/
def lazyClose : List Char → List Char → Option String
  | [], _ => none
  | c :: rest, acc =>
    if c = ')' then some (String.mk acc.reverse)
    else if c = '\n' then none
    else lazyClose rest (c :: acc)

/-- `re.search(r'\((.+?)\)', s)`: try each start position left to right; at a
`(` the group needs at least one non-newline character and then the scan of
`lazyClose`; on failure the search resumes at the next position. -/
def lazyOpen : List Char → Option String
  | [] => none
  | c :: rest =>
    if c = '(' then
      match rest with
      | [] => none
      | c1 :: rest1 =>
        if c1 = '\n' then lazyOpen rest
        else
          match lazyClose rest1 [c1] with
          | some g => some g
          | none => lazyOpen rest
    else lazyOpen rest

def parenGroup (s : String) : Option String :=
  lazyOpen s.data

/-- Lines 74-85: the attachment link is the `href` of the cell's anchor when
the anchor exists and has one (`attachment_tag and attachment_tag.has_attr('href')`),
and only inside that branch is the parenthesised size searched for in the
cell's text. -/
def attachmentInfo (c : Cell) : Option String × Option String :=
  match c.anchor with
  | some a =>
    match a.href with
    | some h => (some h, parenGroup c.text)
    | none => (none, none)
  | none => (none, none)

/-- The body of the row loop of `parse_filings_table` (lines 56-99): rows with
fewer than 7 cells are skipped; the symbol comes from the first cell's anchor
text when an anchor exists, else the cell text; cell 5 is unused and the
broadcast date is cell 6. -/
def parseRow (row : TableRow) : Option Filing :=
  match row.cells with
  | c0 :: c1 :: c2 :: c3 :: c4 :: _c5 :: c6 :: _ =>
    some { symbol :=
             match c0.anchor with
             | some a => a.text
             | none => c0.text
           company_name := c1.text
           subject := c2.text
           details := c3.text
           attachment_link := (attachmentInfo c4).1
           attachment_size := (attachmentInfo c4).2
           broadcast_date := c6.text }
  | _ => none

/-- `parse_filings_table`: for every table whose headers contain `SYMBOL`,
`COMPANY NAME` and `SUBJECT`, parse every row after the header row; the
filings of all matching tables accumulate in order. -/
def parse_filings_table (tables : List HtmlTable) : List Filing :=
  tables.flatMap (fun t =>
    if t.headerTexts.contains "SYMBOL" && t.headerTexts.contains "COMPANY NAME"
        && t.headerTexts.contains "SUBJECT" then
      (t.rows.drop 1).filterMap parseRow
    else [])

/-! ## Theorems for the claims -/

/-- **C2**: running a cycle twice with identical upstream data produces zero
novel records on the second run: the first run of `main()` saves `current` as
the cache, and diffing the same `current` against that saved cache with
`find_new` yields the empty novel list. -/
theorem C2_idempotent_rerun (current cache : List Announcement) (h : current ≠ []) :
    (mainCycle (some current) (mainCycle (some current) cache).1).2 = some [] := by
  simp only [mainCycle, if_neg h]
  refine congrArg some ?_
  rw [find_new, List.filter_eq_nil_iff]
  intro f hf
  have : fnKey f ∈ (current.map fnKey) := List.mem_map_of_mem fnKey hf
  simp [this]

/-- **C2 witness**: the idempotent-rerun theorem at a concrete one-record feed. -/
theorem C2_idempotent_rerun_witness :
    (mainCycle (some [⟨"ACME", "Acme Ltd", "Board Meeting", "d", "10-Jan-2025", none, none⟩])
      (mainCycle (some [⟨"ACME", "Acme Ltd", "Board Meeting", "d", "10-Jan-2025", none, none⟩])
        []).1).2 = some [] :=
  C2_idempotent_rerun _ _ (by decide)

/-- **C3 counterexample**: the claim says any two filing records agreeing on
`(company, broadcast_at, subject)` have equal fingerprints and are treated as
the same event by the novelty check.  These two records agree on
`company_name`, `broadcast_date` and `subject` but differ in `symbol`; their
`find_new` keys differ, and `find_new` reports the second as novel against a
baseline holding the first. -/
theorem C3_counterexample :
    (Announcement.mk "ABC" "Acme Ltd" "Board Meeting" "d1" "10-Jan-2025 10:00:00" none none).company_name
      = (Announcement.mk "ABCD" "Acme Ltd" "Board Meeting" "d2" "10-Jan-2025 10:00:00" none none).company_name
    ∧ (Announcement.mk "ABC" "Acme Ltd" "Board Meeting" "d1" "10-Jan-2025 10:00:00" none none).broadcast_date
      = (Announcement.mk "ABCD" "Acme Ltd" "Board Meeting" "d2" "10-Jan-2025 10:00:00" none none).broadcast_date
    ∧ (Announcement.mk "ABC" "Acme Ltd" "Board Meeting" "d1" "10-Jan-2025 10:00:00" none none).subject
      = (Announcement.mk "ABCD" "Acme Ltd" "Board Meeting" "d2" "10-Jan-2025 10:00:00" none none).subject
    ∧ fnKey (Announcement.mk "ABC" "Acme Ltd" "Board Meeting" "d1" "10-Jan-2025 10:00:00" none none)
      ≠ fnKey (Announcement.mk "ABCD" "Acme Ltd" "Board Meeting" "d2" "10-Jan-2025 10:00:00" none none)
    ∧ find_new [Announcement.mk "ABC" "Acme Ltd" "Board Meeting" "d1" "10-Jan-2025 10:00:00" none none]
        [Announcement.mk "ABCD" "Acme Ltd" "Board Meeting" "d2" "10-Jan-2025 10:00:00" none none]
      = [Announcement.mk "ABCD" "Acme Ltd" "Board Meeting" "d2" "10-Jan-2025 10:00:00" none none] := by
  refine ⟨rfl, rfl, rfl, ?_, ?_⟩ <;> decide

/-- **C3 (amended)**: the deduplication key of `find_new` is a pure function of
`(symbol, broadcast_date, subject)` — not of the company name: two records
agreeing on those three fields have equal keys and the second is not novel
against a baseline holding the first, whatever their `company_name`,
`details`, `attachment_link` or `attachment_size`. -/
theorem C3_fingerprint_symbol_based (r r' : Announcement)
    (h1 : r.symbol = r'.symbol) (h2 : r.broadcast_date = r'.broadcast_date)
    (h3 : r.subject = r'.subject) :
    fnKey r = fnKey r' ∧ find_new [r] [r'] = [] := by
  have hk : fnKey r = fnKey r' := by rw [fnKey, fnKey, h1, h2, h3]
  refine ⟨hk, ?_⟩
  rw [find_new, List.filter_eq_nil_iff]
  intro f hf
  have hf' : f = r' := by simpa using hf
  subst hf'
  simp [← hk]

/-- **C3 witness**: the amended theorem at two concrete records that differ in
every field except `(symbol, broadcast_date, subject)`. -/
theorem C3_fingerprint_symbol_based_witness :
    fnKey (Announcement.mk "ABC" "Acme Ltd" "Board Meeting" "d1" "10-Jan-2025 10:00:00" none none)
      = fnKey (Announcement.mk "ABC" "Acme Limited" "Board Meeting" "d2" "10-Jan-2025 10:00:00" (some "http://x") (some "10 KB"))
    ∧ find_new [Announcement.mk "ABC" "Acme Ltd" "Board Meeting" "d1" "10-Jan-2025 10:00:00" none none]
        [Announcement.mk "ABC" "Acme Limited" "Board Meeting" "d2" "10-Jan-2025 10:00:00" (some "http://x") (some "10 KB")]
      = [] :=
  C3_fingerprint_symbol_based _ _ rfl rfl rfl

/-- **C7**: a total fetch failure (the collaborator returns `None`, or the
parsed data is empty) aborts the cycle before any state mutation: `main.py`
leaves the JSON cache untouched and produces no novel set, and
`nse_scrapper.main` leaves both the `company-map` and `last_hour` collections
untouched. -/
theorem C7_fetch_failure_no_mutation (cache : List Announcement) (st : ScraperState) :
    mainCycle none cache = (cache, none)
    ∧ mainCycle (some []) cache = (cache, none)
    ∧ scraperMain none st = st
    ∧ scraperMain (some []) st = st :=
  ⟨rfl, rfl, rfl, rfl⟩

/-! ### Helper lemmas on `upsert` / `save_to_mongodb` -/

theorem mem_keys_upsert (m : CompanyColl) (k : String) (v : NSEAnnouncement) (x : String) :
    x ∈ (upsert m k v).map Prod.fst ↔ x ∈ m.map Prod.fst ∨ x = k := by
  induction m with
  | nil => simp [upsert]
  | cons p rest ih =>
    obtain ⟨p1, p2⟩ := p
    cases hpk : (p1 == k) with
    | true =>
      have hpk' : p1 = k := by simpa using hpk
      subst hpk'
      simp only [upsert, beq_self_eq_true, if_true, List.map_cons, List.mem_cons]
      tauto
    | false =>
      simp only [upsert, hpk, Bool.false_eq_true, if_false, List.map_cons,
        List.mem_cons, ih]
      tauto

theorem keys_upsert_nodup (m : CompanyColl) (k : String) (v : NSEAnnouncement)
    (h : (m.map Prod.fst).Nodup) : ((upsert m k v).map Prod.fst).Nodup := by
  induction m with
  | nil => simp [upsert]
  | cons p rest ih =>
    obtain ⟨p1, p2⟩ := p
    simp only [List.map_cons, List.nodup_cons] at h
    cases hpk : (p1 == k) with
    | true =>
      have hpk' : p1 = k := by simpa using hpk
      subst hpk'
      simp only [upsert, beq_self_eq_true, if_true, List.map_cons, List.nodup_cons]
      exact ⟨h.1, h.2⟩
    | false =>
      have hpk' : p1 ≠ k := by simpa using hpk
      simp only [upsert, hpk, Bool.false_eq_true, if_false, List.map_cons,
        List.nodup_cons]
      refine ⟨?_, ih h.2⟩
      rw [mem_keys_upsert]
      rintro (hmem | heq)
      · exact h.1 hmem
      · exact hpk' heq

theorem findEntry_upsert_self (m : CompanyColl) (k : String) (v : NSEAnnouncement) :
    findEntry (upsert m k v) k = some v := by
  induction m with
  | nil => simp [upsert, findEntry]
  | cons p rest ih =>
    obtain ⟨p1, p2⟩ := p
    cases hpk : (p1 == k) with
    | true =>
      have hpk' : p1 = k := by simpa using hpk
      subst hpk'
      simp [upsert, findEntry]
    | false =>
      simp only [upsert, hpk, Bool.false_eq_true, if_false]
      simpa [findEntry, List.find?, hpk] using ih

theorem findEntry_upsert_ne (m : CompanyColl) (k k' : String) (v : NSEAnnouncement)
    (h : k' ≠ k) : findEntry (upsert m k v) k' = findEntry m k' := by
  have hkk : (k == k') = false := by simpa using fun e => h e.symm
  induction m with
  | nil => simp [upsert, findEntry, hkk]
  | cons p rest ih =>
    obtain ⟨p1, p2⟩ := p
    cases hpk : (p1 == k) with
    | true =>
      have hpk' : p1 = k := by simpa using hpk
      subst hpk'
      simp [upsert, findEntry, List.find?, hkk]
    | false =>
      simp only [upsert, hpk, Bool.false_eq_true, if_false]
      cases hp' : (p1 == k') with
      | true => simp [findEntry, List.find?, hp']
      | false => simpa [findEntry, List.find?, hp'] using ih

theorem mem_keys_save (coll : CompanyColl) (records : List NSERecord) (x : String)
    (h : x ∈ coll.map Prod.fst) :
    x ∈ (save_to_mongodb coll records).map Prod.fst := by
  induction records generalizing coll with
  | nil => simpa [save_to_mongodb] using h
  | cons r rest ih =>
    simp only [save_to_mongodb, List.foldl_cons]
    exact ih _ ((mem_keys_upsert _ _ _ _).2 (Or.inl h))

theorem keys_save_nodup (coll : CompanyColl) (records : List NSERecord)
    (h : (coll.map Prod.fst).Nodup) :
    ((save_to_mongodb coll records).map Prod.fst).Nodup := by
  induction records generalizing coll with
  | nil => simpa [save_to_mongodb] using h
  | cons r rest ih =>
    simp only [save_to_mongodb, List.foldl_cons]
    exact ih _ (keys_upsert_nodup _ _ _ h)

theorem mem_keys_save_of_mem (coll : CompanyColl) (records : List NSERecord)
    (r : NSERecord) (h : r ∈ records) :
    companyKey r ∈ (save_to_mongodb coll records).map Prod.fst := by
  induction records generalizing coll with
  | nil => cases h
  | cons r0 rest ih =>
    simp only [save_to_mongodb, List.foldl_cons]
    rcases List.mem_cons.1 h with heq | hmem
    · subst heq
      exact mem_keys_save _ _ _ ((mem_keys_upsert _ _ _ _).2 (Or.inr rfl))
    · exact ih _ hmem

theorem findEntry_save_not_mem (coll : CompanyColl) (records : List NSERecord)
    (k : String) (h : k ∉ records.map companyKey) :
    findEntry (save_to_mongodb coll records) k = findEntry coll k := by
  induction records generalizing coll with
  | nil => simp [save_to_mongodb]
  | cons r rest ih =>
    simp only [List.map_cons, List.mem_cons, not_or] at h
    simp only [save_to_mongodb, List.foldl_cons] at ih ⊢
    rw [ih _ h.2, findEntry_upsert_ne _ _ _ _ h.1]

/-- **C4 counterexample**: the claim says baseline entries for companies absent
from the current feed are retained unchanged.  In `main.py` the baseline is the
JSON cache and `save_cache(current)` replaces it wholesale: starting from a
cache holding an "Acme Ltd" record, a cycle whose feed contains only a
"Bharat Co" record leaves a cache with no "Acme Ltd" entry at all. -/
theorem C4_counterexample :
    (Announcement.mk "ACME" "Acme Ltd" "Results" "d0" "09-Jan-2025" none none).company_name
      = "Acme Ltd"
    ∧ (mainCycle (some [Announcement.mk "BHRT" "Bharat Co" "Results" "d1" "10-Jan-2025" none none])
        [Announcement.mk "ACME" "Acme Ltd" "Results" "d0" "09-Jan-2025" none none]).1
      = [Announcement.mk "BHRT" "Bharat Co" "Results" "d1" "10-Jan-2025" none none]
    ∧ ((mainCycle (some [Announcement.mk "BHRT" "Bharat Co" "Results" "d1" "10-Jan-2025" none none])
        [Announcement.mk "ACME" "Acme Ltd" "Results" "d0" "09-Jan-2025" none none]).1.any
          (fun f => f.company_name == "Acme Ltd")) = false := by
  refine ⟨rfl, ?_, ?_⟩ <;> decide

/-- **C4 (amended)**: in the MongoDB `company-map` collection
(`NSEScraper.save_to_mongodb`) the updated baseline has distinct `_id` keys
with exactly one entry per company seen in the current feed, and entries for
companies absent from the feed are retained unchanged; the JSON file cache of
`main.py` instead replaces the baseline wholesale with the current feed. -/
theorem C4_baseline_per_company (coll : CompanyColl) (records : List NSERecord)
    (hnd : (coll.map Prod.fst).Nodup) :
    ((save_to_mongodb coll records).map Prod.fst).Nodup
    ∧ (∀ r ∈ records,
        ((save_to_mongodb coll records).map Prod.fst).count (companyKey r) = 1)
    ∧ (∀ k, k ∉ records.map companyKey →
        findEntry (save_to_mongodb coll records) k = findEntry coll k)
    ∧ (∀ (current cache : List Announcement), current ≠ [] →
        (mainCycle (some current) cache).1 = current) := by
  refine ⟨keys_save_nodup _ _ hnd, ?_, ?_, ?_⟩
  · intro r hr
    exact List.count_eq_one_of_mem (keys_save_nodup _ _ hnd)
      (mem_keys_save_of_mem _ _ _ hr)
  · intro k hk
    exact findEntry_save_not_mem _ _ _ hk
  · intro current cache h
    simp [mainCycle, if_neg h]

/-- **C4 witness**: the amended theorem at a one-record feed over a collection
already holding an entry for a different company. -/
theorem C4_baseline_per_company_witness :
    ((save_to_mongodb [("Old Co", NSEAnnouncement.mk "OLD" "S" "D" "" "" "" "")]
        [NSERecord.mk "ACME" "Acme Ltd" "Results" "" "" "" "10-Jan-2025" "" ""]).map Prod.fst).Nodup
    ∧ ((save_to_mongodb [("Old Co", NSEAnnouncement.mk "OLD" "S" "D" "" "" "" "")]
        [NSERecord.mk "ACME" "Acme Ltd" "Results" "" "" "" "10-Jan-2025" "" ""]).map Prod.fst).count
          (companyKey (NSERecord.mk "ACME" "Acme Ltd" "Results" "" "" "" "10-Jan-2025" "" "")) = 1
    ∧ findEntry (save_to_mongodb [("Old Co", NSEAnnouncement.mk "OLD" "S" "D" "" "" "" "")]
        [NSERecord.mk "ACME" "Acme Ltd" "Results" "" "" "" "10-Jan-2025" "" ""]) "Old Co"
      = findEntry [("Old Co", NSEAnnouncement.mk "OLD" "S" "D" "" "" "" "")] "Old Co"
    ∧ (mainCycle (some [Announcement.mk "ACME" "Acme Ltd" "Results" "d" "10-Jan-2025" none none]) []).1
      = [Announcement.mk "ACME" "Acme Ltd" "Results" "d" "10-Jan-2025" none none] := by
  have h := C4_baseline_per_company
    [("Old Co", NSEAnnouncement.mk "OLD" "S" "D" "" "" "" "")]
    [NSERecord.mk "ACME" "Acme Ltd" "Results" "" "" "" "10-Jan-2025" "" ""]
    (by decide)
  exact ⟨h.1, h.2.1 _ (by simp), h.2.2.1 "Old Co" (by decide), h.2.2.2 _ [] (by decide)⟩

theorem serverCompanyKey_ne_empty (r : NSERecord) (c : String)
    (h : serverCompanyKey r = some c) : c ≠ "" := by
  unfold serverCompanyKey at h
  split_ifs at h with h1 h2 h3 <;> simp_all

theorem scrapeSaved_length (rs : List NSERecord) :
    (scrapeSaved rs).length
      = (rs.filter (fun q => (serverCompanyKey q).isSome)).length := by
  induction rs with
  | nil => rfl
  | cons q rest ih =>
    cases hk : serverCompanyKey q with
    | none =>
      simpa [scrapeSaved, List.filterMap_cons, hk, List.filter_cons, scrapeSaved]
        using ih
    | some c =>
      simpa [scrapeSaved, List.filterMap_cons, hk, List.filter_cons, scrapeSaved]
        using ih

/-- **C5 counterexample**: the claim says a raw record with no resolvable
company identity is dropped, not stored.  `NSEScraper.save_to_mongodb` instead
stores such a record under the placeholder key `'Unknown'`: upserting the
all-empty record into an empty collection yields a stored entry. -/
theorem C5_counterexample :
    (NSERecord.mk "" "" "" "" "" "" "" "" "").Company = ""
    ∧ (NSERecord.mk "" "" "" "" "" "" "" "" "").sm_name = ""
    ∧ (NSERecord.mk "" "" "" "" "" "" "" "" "").Symbol = ""
    ∧ save_to_mongodb [] [NSERecord.mk "" "" "" "" "" "" "" "" ""]
      = [("Unknown", announcementOf (NSERecord.mk "" "" "" "" "" "" "" "" ""))] := by
  refine ⟨rfl, rfl, rfl, ?_⟩
  decide

/-- **C5 (amended)**: `server.py`'s `/scrape` loop drops records whose
`Company`/`sm_name`/`Symbol` chain is falsy — every stored entry has a
non-empty company key and the stored count equals the count of records with a
resolvable key; `NSEScraper.save_to_mongodb` instead maps a record with no
company identity to the placeholder key `'Unknown'` and stores it. -/
theorem C5_drop_missing_company (records : List NSERecord) (r : NSERecord)
    (h1 : r.Company = "") (h2 : r.sm_name = "") :
    ((scrapeSaved records).all (fun p => !(p.1 == ""))) = true
    ∧ (scrapeSaved records).length
        = (records.filter (fun q => (serverCompanyKey q).isSome)).length
    ∧ (r.Symbol = "" → scrapeSaved [r] = [])
    ∧ companyKey r = "Unknown"
    ∧ ∀ coll : CompanyColl,
        "Unknown" ∈ (save_to_mongodb coll [r]).map Prod.fst := by
  refine ⟨?_, scrapeSaved_length records, ?_, ?_, ?_⟩
  · rw [List.all_eq_true]
    intro p hp
    rw [scrapeSaved, List.mem_filterMap] at hp
    obtain ⟨q, _, hq⟩ := hp
    cases hk : serverCompanyKey q with
    | none => rw [hk] at hq; cases hq
    | some c =>
      rw [hk] at hq
      simp only [Option.map_some', Option.some.injEq] at hq
      have : p.1 = c := by rw [← hq]
      simpa [this] using serverCompanyKey_ne_empty q c hk
  · intro h3
    simp [scrapeSaved, serverCompanyKey, h1, h2, h3]
  · simp [companyKey, h1, h2]
  · intro coll
    have hck : companyKey r = "Unknown" := by simp [companyKey, h1, h2]
    simpa [save_to_mongodb, hck] using
      (mem_keys_upsert coll "Unknown" (announcementOf r) "Unknown").2 (Or.inr rfl)

/-- **C5 witness**: the amended theorem at a symbol-only record (stored by the
server with key `TCS`) and the all-empty record (stored by `save_to_mongodb`
under `Unknown`). -/
theorem C5_drop_missing_company_witness :
    ((scrapeSaved [NSERecord.mk "TCS" "" "" "" "" "" "" "" ""]).all
        (fun p => !(p.1 == ""))) = true
    ∧ (scrapeSaved [NSERecord.mk "TCS" "" "" "" "" "" "" "" ""]).length
        = (([NSERecord.mk "TCS" "" "" "" "" "" "" "" ""]).filter
            (fun q => (serverCompanyKey q).isSome)).length
    ∧ scrapeSaved [NSERecord.mk "" "" "" "" "" "" "" "" ""] = []
    ∧ companyKey (NSERecord.mk "" "" "" "" "" "" "" "" "") = "Unknown"
    ∧ "Unknown" ∈ (save_to_mongodb [] [NSERecord.mk "" "" "" "" "" "" "" "" ""]).map Prod.fst := by
  have h := C5_drop_missing_company [NSERecord.mk "TCS" "" "" "" "" "" "" "" ""]
    (NSERecord.mk "" "" "" "" "" "" "" "" "") rfl rfl
  exact ⟨h.1, h.2.1, h.2.2.1 rfl, h.2.2.2.1, h.2.2.2.2 []⟩

theorem validate_recipients_invalid (rs : List RecipEntry) :
    ∀ e ∈ rs, normalize_phone e.phone = none → e ∈ (validate_recipients rs).2 := by
  induction rs with
  | nil => intro e he; cases he
  | cons r rest ih =>
    intro e he hn
    rcases List.mem_cons.1 he with heq | hmem
    · subst heq
      simp [validate_recipients, hn]
    · cases hr : normalize_phone r.phone with
      | none => simpa [validate_recipients, hr] using Or.inr (ih e hmem hn)
      | some n => simpa [validate_recipients, hr] using ih e hmem hn

theorem validate_recipients_valid (rs : List RecipEntry) :
    ∀ v ∈ (validate_recipients rs).1, ∃ e ∈ rs, normalize_phone e.phone = some v.phone := by
  induction rs with
  | nil => intro v hv; cases hv
  | cons r rest ih =>
    intro v hv
    cases hr : normalize_phone r.phone with
    | none =>
      simp only [validate_recipients, hr] at hv
      obtain ⟨e, he, hn⟩ := ih v hv
      exact ⟨e, List.mem_cons_of_mem _ he, hn⟩
    | some n =>
      simp only [validate_recipients, hr] at hv
      rcases List.mem_cons.1 hv with heq | hmem
      · subst heq
        exact ⟨r, List.mem_cons_self _ _, hr⟩
      · obtain ⟨e, he, hn⟩ := ih v hmem
        exact ⟨e, List.mem_cons_of_mem _ he, hn⟩

/-- **C6 counterexample**: the claim says every phone value that fails
normalization is excluded from the recipient set entirely.  The recipient
extraction of `broadcast_message.main` never calls `normalize_phone`: the
contact phone `"123"` fails normalization (3 digits, below the 8-digit
minimum) yet is the sole member of the broadcast recipient set. -/
theorem C6_counterexample :
    normalize_phone (some "123") = none
    ∧ (broadcastRecipients [Contact.mk "123" "" none]).map ValidRecipient.phone
      = ["123"] := by
  refine ⟨?_, ?_⟩ <;> decide

/-- **C6 (amended)**: `normalize_phone` (send_whatsapp_template.py) maps any
accepted value to its digits-only form of 8–15 digits, and
`validate_recipients` routes failing entries into the invalid list while every
accepted recipient's phone is the normalization of some entry;
`"+91 80-8148-9340"` normalizes to `"918081489340"` and `"123"` is rejected.
`broadcast_message.py`, however, builds its recipient set without any
normalization: every contact with a truthy phone enters the set after mere
separator stripping. -/
theorem C6_phone_normalization (phone : Option String) (s : String)
    (rs : List RecipEntry) (contacts : List Contact) (c : Contact)
    (h : normalize_phone phone = some s) (hc : c ∈ contacts) (hph : c.phone ≠ "") :
    (s = digitsOnly (phone.getD "") ∧ 8 ≤ s.length ∧ s.length ≤ 15)
    ∧ (∀ e ∈ rs, normalize_phone e.phone = none → e ∈ (validate_recipients rs).2)
    ∧ (∀ v ∈ (validate_recipients rs).1,
        ∃ e ∈ rs, normalize_phone e.phone = some v.phone)
    ∧ normalize_phone (some "+91 80-8148-9340") = some "918081489340"
    ∧ normalize_phone (some "123") = none
    ∧ stripSeps c.phone ∈ (broadcastRecipients contacts).map ValidRecipient.phone := by
  refine ⟨?_, validate_recipients_invalid rs, validate_recipients_valid rs,
    by decide, by decide, ?_⟩
  · cases phone with
    | none => exact absurd h (by simp [normalize_phone])
    | some s0 =>
      simp only [normalize_phone] at h
      split_ifs at h with h0 hd hl
      all_goals simp at h
      subst h
      simp only [Bool.or_eq_true, decide_eq_true_eq, not_or, not_lt] at hl
      exact ⟨rfl, by omega, by omega⟩
  · rw [List.mem_map]
    refine ⟨⟨stripSeps c.phone, (c.name).getD "Customer"⟩, ?_, rfl⟩
    rw [broadcastRecipients, List.mem_filterMap]
    exact ⟨c, hc, by simp [hph]⟩

/-- **C6 witness**: the amended theorem at the spec's two scenario phones and a
single-contact broadcast database. -/
theorem C6_phone_normalization_witness :
    ("918081489340" = digitsOnly ((some "+91 80-8148-9340").getD "")
      ∧ 8 ≤ ("918081489340" : String).length ∧ ("918081489340" : String).length ≤ 15)
    ∧ (RecipEntry.mk (some "123") none)
        ∈ (validate_recipients [RecipEntry.mk (some "123") none]).2
    ∧ normalize_phone (some "+91 80-8148-9340") = some "918081489340"
    ∧ normalize_phone (some "123") = none
    ∧ stripSeps "123"
        ∈ (broadcastRecipients [Contact.mk "123" "" none]).map ValidRecipient.phone := by
  have h := C6_phone_normalization (some "+91 80-8148-9340") "918081489340"
    [RecipEntry.mk (some "123") none] [Contact.mk "123" "" none]
    (Contact.mk "123" "" none) (by decide) (by simp) (by decide)
  exact ⟨h.1, h.2.1 _ (by simp) (by decide), h.2.2.2.1, h.2.2.2.2.1, h.2.2.2.2.2⟩

theorem truncateDetails_length (s : String) : (truncateDetails s).length ≤ 1000 := by
  rw [truncateDetails]
  split_ifs with h
  · have hlen : (String.mk (s.data.take 997) ++ "...").length
        = (s.data.take 997).length + 3 := by
      rw [String.length_append]
      rfl
    rw [hlen, List.length_take]
    omega
  · omega

/-- **C10 counterexample**: the claim says every body parameter is a non-empty
string.  The sanitization `str(v).strip() if v else default` takes the
truthy branch on the whitespace-only input `" "` and strips it to the empty
string, so the `user_name` parameter text is empty. -/
theorem C10_counterexample :
    (" " : String) ≠ ""
    ∧ (build_template_payload (some " ") (some "REF-TCS") (some "101.5")
        (some "Board meeting update.")).user_name = "" := by
  refine ⟨?_, ?_⟩ <;> decide

/-- **C10 (amended)**: `build_template_payload` replaces falsy (`None`/empty)
inputs by the fixed defaults `'User'`, `'REF-UNKNOWN'`, `'N/A'`,
`'Log update.'` and truthy inputs by their stripped text — which is empty for
whitespace-only input; the `alert_details` text is always at most 1000
characters, and a stripped input longer than 1000 characters is truncated to
its first 997 characters plus `'...'`. -/
theorem C10_template_payload (u i v a : Option String) :
    (build_template_payload u i v a).alert_details.length ≤ 1000
    ∧ (build_template_payload none i v a).user_name = "User"
    ∧ (build_template_payload (some "") i v a).user_name = "User"
    ∧ (build_template_payload u none v a).item_id = "REF-UNKNOWN"
    ∧ (build_template_payload u i none a).value_metric = "N/A"
    ∧ (build_template_payload u i v none).alert_details = "Log update."
    ∧ (∀ s, s ≠ "" → (build_template_payload (some s) i v a).user_name = pyStrip s)
    ∧ (∀ s, s ≠ "" → (pyStrip s).length > 1000 →
        (build_template_payload u i v (some s)).alert_details
          = String.mk ((pyStrip s).data.take 997) ++ "...") := by
  refine ⟨truncateDetails_length _, rfl, ?_, rfl, rfl, rfl, ?_, ?_⟩
  · rfl
  · intro s hs
    simp [build_template_payload, sanitizeField, hs]
  · intro s hs hlen
    show truncateDetails (sanitizeField (some s) "Log update.") = _
    simp only [sanitizeField]
    rw [if_neg hs, truncateDetails, if_pos hlen]

set_option maxRecDepth 10000 in
/-- **C10 witness**: the amended theorem at concrete inputs, including a
1001-character `alert_details` that gets truncated. -/
theorem C10_template_payload_witness :
    (build_template_payload (some " Ayush ") (some "REF-TCS") (some "101.5")
        (some (String.mk (List.replicate 1001 'a')))).alert_details.length ≤ 1000
    ∧ (build_template_payload none none none none).user_name = "User"
    ∧ (build_template_payload none none none none).item_id = "REF-UNKNOWN"
    ∧ (build_template_payload none none none none).value_metric = "N/A"
    ∧ (build_template_payload none none none none).alert_details = "Log update."
    ∧ (build_template_payload (some " Ayush ") none none none).user_name
      = pyStrip " Ayush "
    ∧ (build_template_payload none none none
        (some (String.mk (List.replicate 1001 'a')))).alert_details
      = String.mk ((pyStrip (String.mk (List.replicate 1001 'a'))).data.take 997) ++ "..." := by
  have h1 := C10_template_payload (some " Ayush ") (some "REF-TCS") (some "101.5")
    (some (String.mk (List.replicate 1001 'a')))
  have h2 := C10_template_payload none none none none
  have h3 := C10_template_payload (some " Ayush ") none none none
  have h4 := C10_template_payload none none none none
  exact ⟨h1.1, h2.2.1, h2.2.2.2.1, h2.2.2.2.2.1, h2.2.2.2.2.2.1,
    h3.2.2.2.2.2.2.1 " Ayush " (by decide),
    h4.2.2.2.2.2.2.2 (String.mk (List.replicate 1001 'a')) (by decide) (by decide)⟩

theorem attachmentInfo_size_link (c : Cell) :
    ((attachmentInfo c).2.isNone || (attachmentInfo c).1.isSome) = true := by
  obtain ⟨txt, anc⟩ := c
  rcases anc with _ | a
  · simp [attachmentInfo]
  · obtain ⟨href, atext⟩ := a
    rcases href with _ | h <;> simp [attachmentInfo]

theorem parseRow_size_link (row : TableRow) (f : Filing)
    (h : parseRow row = some f) :
    (f.attachment_size.isNone || f.attachment_link.isSome) = true := by
  rw [parseRow] at h
  split at h
  · cases h
    exact attachmentInfo_size_link _
  · cases h

/-- **C9**: in every filing produced by `parse_filings_table`, a present
`attachment_size` implies a present `attachment_link`: the parenthesised size
is only extracted inside the branch where the attachment cell's anchor exists
and carries an `href`, so no filing carries a size without a link. -/
theorem C9_size_implies_link (tables : List HtmlTable) :
    ((parse_filings_table tables).all
      (fun f => f.attachment_size.isNone || f.attachment_link.isSome)) = true := by
  rw [List.all_eq_true]
  intro f hf
  rw [parse_filings_table, List.mem_flatMap] at hf
  obtain ⟨t, _, hft⟩ := hf
  split_ifs at hft with hhdr
  · rw [List.mem_filterMap] at hft
    obtain ⟨row, _, hrow⟩ := hft
    exact parseRow_size_link row f hrow
  · cases hft

theorem count_pair_map (rs : List String) (did c p : String) :
    List.count (c, p) (rs.map (fun q => (did, q)))
      = if did = c then rs.count p else 0 := by
  induction rs with
  | nil => simp
  | cons q qs ih =>
    simp only [List.map_cons, List.count_cons, ih, beq_iff_eq, Prod.mk.injEq]
    by_cases hdc : did = c
    · subst hdc
      by_cases hqp : p = q
      · simp [hqp]
      · simp [hqp]
    · have hne : ¬(c = did ∧ p = q) := fun hcp => hdc hcp.1.symm
      simp [hdc, hne]

theorem count_sendInvocations (docs : List LastHourDoc) (rs : List String)
    (c p : String) :
    List.count (c, p) (sendInvocations docs rs)
      = (docs.filter (fun d => docEligible d && d.id == c)).length * rs.count p := by
  induction docs with
  | nil => simp [sendInvocations]
  | cons d rest ih =>
    cases he : docEligible d with
    | false =>
      have h1 : sendInvocations (d :: rest) rs = sendInvocations rest rs := by
        simp [sendInvocations, List.filter_cons, he]
      rw [h1, ih, List.filter_cons]
      simp [he]
    | true =>
      have h1 : sendInvocations (d :: rest) rs
          = (rs.map (fun q => (d.id, q))) ++ sendInvocations rest rs := by
        simp [sendInvocations, List.filter_cons, he]
      rw [h1, List.count_append, count_pair_map, ih, List.filter_cons]
      simp only [he, Bool.true_and]
      by_cases hdc : d.id = c
      · simp only [hdc, if_true, beq_self_eq_true, List.length_cons]
        ring
      · have : (d.id == c) = false := by simpa using hdc
        simp [hdc, this]

/-- **C1 counterexample**: the claim says a repeated run of the notification
step re-invokes `send` only for recipients not yet acknowledged.  The
broadcast loop of `summarize_hour.main` keeps no `notified_recipients` record:
with one eligible document and three recipients, a run followed by an
identical retry invokes `send` twice for the first recipient even though the
first run already succeeded for everyone. -/
theorem C1_counterexample :
    List.count ("Acme Ltd", "918081489340")
      (sendInvocations [LastHourDoc.mk "Acme Ltd" "/doc.pdf"]
          ["918081489340", "918012345678", "918098765432"]
        ++ sendInvocations [LastHourDoc.mk "Acme Ltd" "/doc.pdf"]
          ["918081489340", "918012345678", "918098765432"]) = 2 := by
  decide

/-- **C1 (amended)**: the broadcast loop consults no acknowledgment state:
every run — first run or retry alike — invokes `send` for every
(eligible document, recipient) pair; within one run the invocation count of a
pair equals (number of eligible documents with that company) × (number of
occurrences of the phone in the recipient list), and the count over a run plus
an identical retry is exactly double, never restricted to unacknowledged
recipients. -/
theorem C1_send_invocations (docs : List LastHourDoc) (rs : List String)
    (d : LastHourDoc) (p : String)
    (hd : d ∈ docs) (he : docEligible d = true) (hp : p ∈ rs) :
    (d.id, p) ∈ sendInvocations docs rs
    ∧ List.count (d.id, p) (sendInvocations docs rs)
        = (docs.filter (fun e => docEligible e && e.id == d.id)).length * rs.count p
    ∧ List.count (d.id, p) (sendInvocations docs rs ++ sendInvocations docs rs)
        = 2 * List.count (d.id, p) (sendInvocations docs rs) := by
  refine ⟨?_, count_sendInvocations docs rs d.id p, ?_⟩
  · rw [sendInvocations, List.mem_flatMap]
    exact ⟨d, List.mem_filter.2 ⟨hd, he⟩, List.mem_map.2 ⟨p, hp, rfl⟩⟩
  · rw [List.count_append]
    ring

/-- **C1 witness**: the amended theorem at one eligible document and three
distinct recipients. -/
theorem C1_send_invocations_witness :
    ("Acme Ltd", "918081489340")
      ∈ sendInvocations [LastHourDoc.mk "Acme Ltd" "/doc.pdf"]
          ["918081489340", "918012345678", "918098765432"]
    ∧ List.count ("Acme Ltd", "918081489340")
        (sendInvocations [LastHourDoc.mk "Acme Ltd" "/doc.pdf"]
          ["918081489340", "918012345678", "918098765432"])
        = (([LastHourDoc.mk "Acme Ltd" "/doc.pdf"]).filter
            (fun e => docEligible e && e.id == "Acme Ltd")).length
          * (["918081489340", "918012345678", "918098765432"]).count "918081489340"
    ∧ List.count ("Acme Ltd", "918081489340")
        (sendInvocations [LastHourDoc.mk "Acme Ltd" "/doc.pdf"]
            ["918081489340", "918012345678", "918098765432"]
          ++ sendInvocations [LastHourDoc.mk "Acme Ltd" "/doc.pdf"]
            ["918081489340", "918012345678", "918098765432"])
        = 2 * List.count ("Acme Ltd", "918081489340")
            (sendInvocations [LastHourDoc.mk "Acme Ltd" "/doc.pdf"]
              ["918081489340", "918012345678", "918098765432"]) :=
  C1_send_invocations [LastHourDoc.mk "Acme Ltd" "/doc.pdf"]
    ["918081489340", "918012345678", "918098765432"]
    (LastHourDoc.mk "Acme Ltd" "/doc.pdf") "918081489340"
    (by simp) (by decide) (by simp)

theorem heuristic_summary_ne_empty (text : String) : heuristic_summary text ≠ "" := by
  simp only [heuristic_summary]
  split
  · decide
  · intro hEq
    rename_i c _ _
    have h2 : c.data ++ ".".data = [] := by
      rw [← String.data_append, hEq]
    simp at h2

/-- **C8 counterexample**: the claim says summarization falls back to a
heuristic for every input, so it never stalls solely because the primary
summarizer is unavailable.  `summarize_last_hour.summarize_text_with_openai`
has no such fallback: when every OpenAI attempt fails it yields no summary at
all, only an error, and the caller then records the failure without storing
any summary. -/
theorem C8_counterexample :
    (summarize_text_with_openai [none, none, none]).1 = none
    ∧ (summarize_text_with_openai [none, none, none]).2.isSome = true := by
  exact ⟨rfl, rfl⟩

/-- **C8 (amended)**: in `summarize_hour.summarize_text` the fallback is real:
whenever the OpenAI key is falsy or the primary call fails, the result is the
deterministic heuristic summary (or the fixed placeholder for empty text), it
is never the empty string, and no error is reported — so that script's
notification step always receives usable text.
`summarize_last_hour.summarize_text_with_openai`, by contrast, returns no
summary when the primary summarizer fails. -/
theorem C8_summarize_fallback (key llm : Option String) (text company : String)
    (h : keyTruthy key = false ∨ llm = none) :
    (summarize_text key llm text company).1
      = (if text = "" then "No text extracted from document."
          else heuristic_summary text)
    ∧ (summarize_text key llm text company).1 ≠ ""
    ∧ (summarize_text key llm text company).2 = none := by
  have hsum : (summarize_text key llm text company).1
      = (if text = "" then "No text extracted from document."
          else heuristic_summary text) := by
    by_cases ht : text = ""
    · simp [summarize_text, ht]
    · rcases h with hk | hl
      · simp [summarize_text, ht, hk]
      · cases hkt : keyTruthy key <;> simp [summarize_text, ht, hkt, hl]
  refine ⟨hsum, ?_, ?_⟩
  · rw [hsum]
    by_cases ht : text = ""
    · simp only [ht, if_true]
      decide
    · simp only [ht, if_false]
      exact heuristic_summary_ne_empty text
  · by_cases ht : text = ""
    · simp [summarize_text, ht]
    · rcases h with hk | hl
      · simp [summarize_text, ht, hk]
      · cases hkt : keyTruthy key <;> simp [summarize_text, ht, hkt, hl]

/-- **C8 witness**: the amended theorem with no API key configured and a
non-empty extracted text. -/
theorem C8_summarize_fallback_witness :
    (summarize_text none none
        "The board approved a dividend of Rs 5 per share. Record date follows."
        "Acme Ltd").1
      = (if ("The board approved a dividend of Rs 5 per share. Record date follows." : String) = ""
          then "No text extracted from document."
          else heuristic_summary
            "The board approved a dividend of Rs 5 per share. Record date follows.")
    ∧ (summarize_text none none
        "The board approved a dividend of Rs 5 per share. Record date follows."
        "Acme Ltd").1 ≠ ""
    ∧ (summarize_text none none
        "The board approved a dividend of Rs 5 per share. Record date follows."
        "Acme Ltd").2 = none :=
  C8_summarize_fallback none none
    "The board approved a dividend of Rs 5 per share. Record date follows."
    "Acme Ltd" (Or.inl rfl)

end StockAlert
